import Mathlib

/-!
Verification of the Go-OTP-Login service core: a shallow embedding of the
OTP request/verify lifecycle, the atomic Redis rate-limit script, the JWT
issue/validate pair, and the authentication middleware, with theorems about
the behaviour each part exhibits.

Times are modelled as integers counting whole seconds (the precision of both
Redis TTLs and JWT NumericDate claims).  Machine int64 values are modelled as
unbounded Int: no arithmetic in the embedded code can overflow 64 bits on the
values it actually handles.
-/

set_option maxHeartbeats 1000000
set_option maxRecDepth 4000

namespace OtpLogin

/-! ## Decimal formatting and parsing (Go strconv.FormatInt / ParseInt, base 10)

generateJWT writes the user id into the token subject with
strconv.FormatInt(userID, 10) and the authenticate middleware reads it back
with strconv.ParseInt(claims.Subject, 10, 64).
-/

/-- A decimal digit value rendered as its ASCII character. -/
def digitChar (d : Nat) : Char := Char.ofNat (48 + d)

/-- Decimal digit characters of a natural number, most significant first,
by fuel-indexed structural recursion (the value shrinks by a factor of ten
each step, so any fuel above the value suffices and the result does not
depend on it). -/
def natCharsCore : Nat → Nat → List Char
  | 0, _ => []
  | fuel + 1, n =>
    if n < 10 then [digitChar n]
    else natCharsCore fuel (n / 10) ++ [digitChar (n % 10)]

/-- Decimal representation of a natural number, most significant digit first:
the characters Go strconv.FormatInt produces for a nonnegative value. -/
def natChars (n : Nat) : List Char := natCharsCore (n + 1) n

theorem natCharsCore_eq (n : Nat) : ∀ f1 f2 : Nat, n < f1 → n < f2 →
    natCharsCore f1 n = natCharsCore f2 n := by
  induction n using Nat.strong_induction_on with
  | _ n ih =>
    intro f1 f2 h1 h2
    match f1, f2 with
    | fa + 1, fb + 1 =>
      simp only [natCharsCore]
      by_cases h : n < 10
      · simp [h]
      · simp only [h, if_false]
        have hdiv : n / 10 < n := Nat.div_lt_self (by omega) (by omega)
        rw [ih (n / 10) hdiv fa fb (by omega) (by omega)]

/-- The recursion equation of natChars. -/
theorem natChars_eq (n : Nat) :
    natChars n =
      if n < 10 then [digitChar n] else natChars (n / 10) ++ [digitChar (n % 10)] := by
  rw [natChars, natCharsCore]
  by_cases h : n < 10
  · simp [h]
  · simp only [h, if_false]
    have hdiv : n / 10 < n := Nat.div_lt_self (by omega) (by omega)
    rw [natCharsCore_eq (n / 10) n (n / 10 + 1) (by omega) (by omega)]
    rfl

/-- Numeric value of a decimal digit character, none for any other character. -/
def digitVal (c : Char) : Option Nat :=
  if 48 ≤ c.toNat ∧ c.toNat ≤ 57 then some (c.toNat - 48) else none

/-- One step of decimal parsing: accumulate a digit, or poison on a non-digit. -/
def parseNatStep (acc : Option Nat) (c : Char) : Option Nat :=
  match acc, digitVal c with
  | some a, some d => some (a * 10 + d)
  | _, _ => none

/-- Parse an all-digits character list (empty input rejected, as strconv does). -/
def parseNatChars (cs : List Char) : Option Nat :=
  if cs.isEmpty then none else cs.foldl parseNatStep (some 0)

/-- Go strconv.FormatInt(i, 10). -/
def formatInt (i : Int) : String :=
  if i < 0 then String.mk ('-' :: natChars i.natAbs)
  else String.mk (natChars i.natAbs)

/-- Sign-aware decimal parse of a character list: optional leading minus sign
followed by at least one decimal digit. -/
def parseIntChars (cs : List Char) : Option Int :=
  match cs with
  | [] => none
  | c :: rest =>
    if c = '-' then (parseNatChars rest).map (fun n => -(n : Int))
    else (parseNatChars (c :: rest)).map (fun n => (n : Int))

/-- Go strconv.ParseInt(s, 10, 64).  (The int64 overflow rejection is not
modelled; the only strings parsed in this development are formatted int64
values.) -/
def parseInt64 (s : String) : Option Int := parseIntChars s.data

theorem digitVal_digitChar (d : Nat) (hd : d < 10) :
    digitVal (digitChar d) = some d := by
  interval_cases d <;> decide

theorem natChars_ne_nil (n : Nat) : natChars n ≠ [] := by
  rw [natChars_eq]
  split
  · simp
  · simp

theorem natChars_head (n : Nat) :
    ∃ d rest, d < 10 ∧ natChars n = digitChar d :: rest := by
  induction n using Nat.strong_induction_on with
  | _ n ih =>
    rw [natChars_eq]
    split
    · exact ⟨n, [], by omega, rfl⟩
    · have hlt : n / 10 < n := Nat.div_lt_self (by omega) (by omega)
      obtain ⟨d, rest, hd, hrepr⟩ := ih (n / 10) hlt
      exact ⟨d, rest ++ [digitChar (n % 10)], hd, by rw [hrepr]; simp⟩

theorem parseNatStep_some (a d : Nat) (c : Char) (h : digitVal c = some d) :
    parseNatStep (some a) c = some (a * 10 + d) := by
  unfold parseNatStep
  rw [h]

theorem foldl_parseNatStep_natChars (n : Nat) :
    ∀ a : Nat, List.foldl parseNatStep (some a) (natChars n) =
      some (a * 10 ^ (natChars n).length + n) := by
  induction n using Nat.strong_induction_on with
  | _ n ih =>
    intro a
    by_cases h : n < 10
    · rw [natChars_eq, if_pos h]
      simp only [List.foldl_cons, List.foldl_nil, List.length_cons,
        List.length_nil, Nat.zero_add]
      rw [parseNatStep_some a n _ (digitVal_digitChar n h)]
      norm_num
    · have hlt : n / 10 < n := Nat.div_lt_self (by omega) (by omega)
      have hrw : natChars n = natChars (n / 10) ++ [digitChar (n % 10)] := by
        rw [natChars_eq]; simp [h]
      rw [hrw, List.foldl_append, ih (n / 10) hlt a]
      simp only [List.foldl_cons, List.foldl_nil, List.length_append,
        List.length_cons, List.length_nil, Nat.zero_add]
      rw [parseNatStep_some _ (n % 10) _ (digitVal_digitChar (n % 10) (Nat.mod_lt n (by omega)))]
      congr 1
      rw [pow_succ]
      have key : ∀ X q r : Nat, q * 10 + r = n →
          (a * X + q) * 10 + r = a * (X * 10) + n := by
        intro X q r hqr
        have hring : (a * X + q) * 10 + r = a * (X * 10) + (q * 10 + r) := by ring
        rw [hring, hqr]
      exact key _ _ _ (by omega)

theorem parseNatChars_natChars (n : Nat) : parseNatChars (natChars n) = some n := by
  have hne : (natChars n).isEmpty = false := by
    cases hrepr : natChars n with
    | nil => exact absurd hrepr (natChars_ne_nil n)
    | cons c cs => rfl
  rw [parseNatChars, hne]
  simp only [Bool.false_eq_true, if_false]
  rw [foldl_parseNatStep_natChars n 0]
  simp

theorem digitChar_ne_minus (d : Nat) (hd : d < 10) : digitChar d ≠ '-' := by
  interval_cases d <;> decide

/-- The subject written by generateJWT parses back to the same user id. -/
theorem parseInt64_formatInt (i : Int) : parseInt64 (formatInt i) = some i := by
  by_cases h : i < 0
  · have hform : parseInt64 (formatInt i) = parseIntChars ('-' :: natChars i.natAbs) := by
      rw [formatInt, if_pos h]; rfl
    rw [hform]
    show (parseNatChars (natChars i.natAbs)).map (fun n => -(n : Int)) = some i
    rw [parseNatChars_natChars]
    show some (-(i.natAbs : Int)) = some i
    congr 1
    omega
  · obtain ⟨d, rest, hd, hrepr⟩ := natChars_head i.natAbs
    have hform : parseInt64 (formatInt i) = parseIntChars (natChars i.natAbs) := by
      rw [formatInt, if_neg h]; rfl
    rw [hform, hrepr, parseIntChars, if_neg (digitChar_ne_minus d hd), ← hrepr,
      parseNatChars_natChars]
    show some ((i.natAbs : Int)) = some i
    congr 1
    omega

/-- The subject written by generateJWT is never the empty string. -/
theorem formatInt_ne_empty (i : Int) : formatInt i ≠ "" := by
  rw [formatInt]
  split
  · intro hcontra
    exact absurd (congrArg String.data hcontra) (by simp)
  · intro hcontra
    exact natChars_ne_nil i.natAbs (by simpa using congrArg String.data hcontra)

/-! ## OTP generation (src/cmd/api/user.go, generateOTP, lines 51-57)

The Go code draws two bytes from crypto/rand into otp, then formats
fmt.Sprintf with format %04d applied to int(otp[0]) % 10000.  Only the
first byte otp[0] is ever read; otp[1] is drawn and discarded.
-/

/-- fmt.Sprintf with format %04d on a natural number: decimal digits padded on
the left with zeros to a minimum width of 4. -/
def sprintf04d (n : Nat) : String :=
  String.mk (List.replicate (4 - (natChars n).length) '0' ++ natChars n)

/-- generateOTP, as written in the source: the random draw fills two bytes
b0 and b1, and the result is Sprintf of int(b0) % 10000 with format %04d.
The second byte b1 does not influence the result. -/
def generateOTP (b0 _b1 : Fin 256) : String :=
  sprintf04d (b0.val % 10000)

/-! ## Redis hash store (OTP challenge records)

State of the Redis keyspace used for OTP challenges: each key (a phone
number) holds a hash (field/value pairs) with an optional absolute expiry.
A key whose expiry has passed behaves exactly like an absent key.  All
operations are given observational Redis semantics at a fixed instant now.
-/

structure RedisEntry where
  fields : List (String × String)
  expireAt : Option Int
deriving DecidableEq, Repr

abbrev RedisState := List (String × RedisEntry)

/-- A present key is live at now when it has no TTL or its expiry is still in
the future; Redis expires the key once now reaches expireAt. -/
def entryLive (e : RedisEntry) (now : Int) : Bool :=
  match e.expireAt with
  | none => true
  | some t => decide (now < t)

def lookupKey (st : RedisState) (key : String) : Option RedisEntry :=
  match st with
  | [] => none
  | (k, e) :: rest => if k = key then some e else lookupKey rest key

/-- The hash fields visible at a key at time now (empty when absent or
expired). -/
def liveFields (st : RedisState) (key : String) (now : Int) : List (String × String) :=
  match lookupKey st key with
  | some e => if entryLive e now then e.fields else []
  | none => []

/-- Reading a Go map built from an HGETALL reply: a missing field reads as
the zero value, the empty string. -/
def goMapGet (m : List (String × String)) (field : String) : String :=
  match m with
  | [] => ""
  | (k, v) :: rest => if k = field then v else goMapGet rest field

def setField (fs : List (String × String)) (k v : String) : List (String × String) :=
  match fs with
  | [] => [(k, v)]
  | (k1, v1) :: rest => if k1 = k then (k, v) :: rest else (k1, v1) :: setField rest k v

def setKey (st : RedisState) (key : String) (e : RedisEntry) : RedisState :=
  match st with
  | [] => [(key, e)]
  | (k, e1) :: rest => if k = key then (key, e) :: rest else (k, e1) :: setKey rest key e

/-- Redis HSET of a single field: merge into a live hash, keeping its TTL;
on an absent or expired key start a fresh hash with no TTL. -/
def hsetRun (st : RedisState) (key field value : String) (now : Int) : RedisState :=
  match lookupKey st key with
  | some e =>
    if entryLive e now then
      setKey st key { fields := setField e.fields field value, expireAt := e.expireAt }
    else
      setKey st key { fields := [(field, value)], expireAt := none }
  | none => setKey st key { fields := [(field, value)], expireAt := none }

/-- Redis EXPIRE: set the TTL of a live key; no effect on an absent or
expired key. -/
def expireRun (st : RedisState) (key : String) (dur now : Int) : RedisState :=
  match lookupKey st key with
  | some e =>
    if entryLive e now then setKey st key { e with expireAt := some (now + dur) }
    else st
  | none => st

/-- Redis HGETALL as a state transformer: returns the visible fields and the
store state after the call (HGETALL is a pure read). -/
def hgetAllRun (st : RedisState) (key : String) (now : Int) :
    (List (String × String)) × RedisState :=
  (liveFields st key now, st)

/-- OTP TTL: 2 minutes, in seconds (src/cmd/api/user.go line 65). -/
def otpTTL : Int := 120

/-- storeOTPInRedis (src/cmd/api/user.go lines 60-69): HSET of the single
field otp at key phoneNumber, then EXPIRE phoneNumber 2 minutes. -/
def storeOTPInRedis (st : RedisState) (phoneNumber otp : String) (now : Int) : RedisState :=
  expireRun (hsetRun st phoneNumber "otp" otp now) phoneNumber otpTTL now

inductive VerifyResult
  | ok
  | invalidOTP
deriving DecidableEq, Repr

/-- verifyOTPInRedis (src/cmd/api/user.go lines 72-81): HGETALL phoneNumber,
then Go-map read of the otp field compared with the submitted code; returns
the result together with the store state after the call.  The HGetAll error
branch (store unreachable) is an infrastructure failure outside this model. -/
def verifyOTPInRedis (st : RedisState) (phoneNumber otp : String) (now : Int) :
    VerifyResult × RedisState :=
  let res := hgetAllRun st phoneNumber now
  if goMapGet res.1 "otp" = otp then (VerifyResult.ok, res.2)
  else (VerifyResult.invalidOTP, res.2)

/-! ## OTP rate limiter (src/unnamed/part_001, lines 413-454)

The counter lives at key rl:otp:<phone> and is manipulated exclusively by
otpRateLimitScript, a Redis Lua script.  Redis executes a script as one
atomic action: no other command interleaves with its EXISTS / SET / INCR /
TTL steps, so one script execution is a single step on the counter state.
-/

def otpRateLimitMax : Nat := 3

/-- The rate-limit window, 10 minutes, in seconds (ARGV passed as
otpRateLimitWindow / time.Second). -/
def otpRateLimitWindow : Int := 600

/-- State of one rl:otp:<phone> counter key: none when absent, otherwise the
stored count and the absolute expiry of the key.  A key whose expiry has
passed behaves exactly like an absent key (EXISTS returns 0). -/
abbrev RLCounter := Option (Nat × Int)

/-- otpRateLimitScript (part_001 lines 418-431): EXISTS key; when absent,
SET key 1 EX win and return count 1 with ttl win; otherwise INCR key (which
keeps the TTL) and return the new count with the remaining TTL.  Returns the
pair the script returns along with the counter state after the call. -/
def otpRateLimitScript (now win : Int) (c : RLCounter) : (Nat × Int) × RLCounter :=
  match c with
  | some (n, exp) =>
    if now < exp then ((n + 1, exp - now), some (n + 1, exp))
    else ((1, win), some (1, now + win))
  | none => ((1, win), some (1, now + win))

/-- allowOTPRequest (part_001 lines 435-454): run the script with the window
in seconds; the request is allowed iff the returned count (arr at index 0) is
at most otpRateLimitMax.  Returns ((allowed, observed count), new state). -/
def allowOTPRequest (now : Int) (c : RLCounter) : (Bool × Nat) × RLCounter :=
  let res := otpRateLimitScript now otpRateLimitWindow c
  ((decide (res.1.1 ≤ otpRateLimitMax), res.1.1), res.2)

/-- A sequence of allowOTPRequest calls at the given instants, returning the
per-call (allowed, observed count) results and the final counter state. -/
def runOTPCalls (times : List Int) (c : RLCounter) : List (Bool × Nat) × RLCounter :=
  match times with
  | [] => ([], c)
  | t :: ts =>
    let r1 := allowOTPRequest t c
    let rs := runOTPCalls ts r1.2
    (r1.1 :: rs.1, rs.2)

/-! ## Durable user store (internal/data, users table)

The users table (migrations/000001_create-user-table.up.sql) has a UNIQUE
constraint on phone_number; id (bigserial) and created_at (NOW()) are
assigned by the database and modelled as inputs to the insert.
-/

structure User where
  id : Int
  createdAt : Int
  phoneNumber : String
deriving DecidableEq, Repr

abbrev DBState := List User

/-- UserModel.GetByPhoneNumber: SELECT ... WHERE phone_number equals the
argument (sql.ErrNoRows surfaces as an error, i.e. none here). -/
def getByPhoneNumber (db : DBState) (phone : String) : Option User :=
  match db with
  | [] => none
  | u :: rest => if u.phoneNumber = phone then some u else getByPhoneNumber rest phone

/-- UserModel.GetByID: SELECT ... WHERE id equals the argument. -/
def getByID (db : DBState) (uid : Int) : Option User :=
  match db with
  | [] => none
  | u :: rest => if u.id = uid then some u else getByID rest uid

/-- UserModel.Insert under the UNIQUE (phone_number) constraint: fails with a
uniqueness violation when the phone number is already present, otherwise
appends the new row with the database-assigned id and created_at. -/
def insertUser (db : DBState) (phone : String) (newId createdAt : Int) :
    Except String (User × DBState) :=
  if (getByPhoneNumber db phone).isSome then
    Except.error "duplicate key value violates unique constraint"
  else
    let u : User := { id := newId, createdAt := createdAt, phoneNumber := phone }
    Except.ok (u, db ++ [u])

/-- createUserIfNotExists (src/cmd/api/user.go lines 84-94): GetByPhoneNumber,
return the user when found; otherwise Insert, wrapping any insert error.
lookupDB is the database state observed by the lookup and insertDB the state
at the insert: a concurrent verification for the same phone number may commit
between the two. -/
def createUserIfNotExists (lookupDB insertDB : DBState) (phone : String)
    (newId createdAt : Int) : Except String User :=
  match getByPhoneNumber lookupDB phone with
  | some u => Except.ok u
  | none =>
    match insertUser insertDB phone newId createdAt with
    | Except.error e => Except.error ("failed to create a user: " ++ e)
    | Except.ok (u, _) => Except.ok u

/-! ## JWT issue and validation (src/cmd/api/user.go, generateJWT and
authenticate)

The HMAC-SHA256 tag is idealized as a collision-free record of the signed
content and the key: a signature verifies under a key exactly when it was
produced over the same header algorithm and claims with that key.
-/

inductive SigAlg
  | HS256
  | RS256
  | noAlg
deriving DecidableEq, Repr

/-- The authenticate keyfunc accepts a token only when its method
type-asserts to jwt.SigningMethodHMAC (algorithm pinning). -/
def SigAlg.isHMAC : SigAlg → Bool
  | SigAlg.HS256 => true
  | _ => false

structure JWTClaims where
  subject : String
  issuedAt : Int
  expiresAt : Int
deriving DecidableEq, Repr

structure MacTag where
  key : String
  alg : SigAlg
  claims : JWTClaims
deriving DecidableEq, Repr

def hmacSign (key : String) (alg : SigAlg) (c : JWTClaims) : MacTag :=
  { key := key, alg := alg, claims := c }

structure SignedToken where
  alg : SigAlg
  claims : JWTClaims
  sig : MacTag
deriving DecidableEq, Repr

/-- generateJWT (src/cmd/api/user.go lines 97-106): registered claims with
subject FormatInt(userID, 10), iat now and exp now plus ttl, signed with
HS256 under the server secret.  ttl and now are in whole seconds. -/
def generateJWT (secret : String) (userID : Int) (ttl now : Int) : SignedToken :=
  let c : JWTClaims :=
    { subject := formatInt userID, issuedAt := now, expiresAt := now + ttl }
  { alg := SigAlg.HS256, claims := c, sig := hmacSign secret SigAlg.HS256 c }

/-- jwt.ParseWithClaims with the authenticate keyfunc: reject a non-HMAC
method, verify the signature against the server secret, then run the jwt v5
default registered-claims validation (exp must be strictly after now with
zero leeway; iat is not validated by default).  Returns the claims when the
token is valid, none when parsing or validation fails. -/
def parseWithClaims (secret : String) (tok : SignedToken) (now : Int) : Option JWTClaims :=
  if tok.alg.isHMAC then
    if tok.sig = hmacSign secret tok.alg tok.claims then
      if now < tok.claims.expiresAt then some tok.claims else none
    else none
  else none

/-! ## Authentication middleware (src/cmd/api/user.go, authenticate at lines
280-330 and requireAuthenticatedUser at lines 333-343)

The Authorization header is modelled by the cases the middleware splits it
into: absent (Header.Get returns the empty string), present but not of the
shape Bearer followed by one space and a payload, or a Bearer credential
whose payload either decodes as a JWT or is garbage that fails parsing.
-/

inductive AuthHeader
  | missing
  | malformed (raw : String)
  | bearer (tok : Option SignedToken)
deriving DecidableEq, Repr

inductive AuthResult
  | unauthorized
  | proceedAnonymous
  | proceedUser (u : User)
deriving DecidableEq, Repr

/-- authenticate: no header proceeds as the anonymous user; a malformed
header, a failed parse or validation, an empty or non-numeric subject, or an
unknown user id short-circuits with 401; otherwise the request proceeds with
the resolved user in context. -/
def authenticate (secret : String) (db : DBState) (now : Int) (hdr : AuthHeader) : AuthResult :=
  match hdr with
  | AuthHeader.missing => AuthResult.proceedAnonymous
  | AuthHeader.malformed _ => AuthResult.unauthorized
  | AuthHeader.bearer none => AuthResult.unauthorized
  | AuthHeader.bearer (some tok) =>
    match parseWithClaims secret tok now with
    | none => AuthResult.unauthorized
    | some claims =>
      if claims.subject = "" then AuthResult.unauthorized
      else
        match parseInt64 claims.subject with
        | none => AuthResult.unauthorized
        | some uid =>
          match getByID db uid with
          | none => AuthResult.unauthorized
          | some u => AuthResult.proceedUser u

inductive RouteOutcome
  | unauthorized
  | handlerRan (u : User)
deriving DecidableEq, Repr

/-- A protected route: requireAuthenticatedUser composed after authenticate.
An anonymous request (IsAnonymous, the pointer test against AnonymousUser)
is rejected with 401; the wrapped handler runs only for a resolved user. -/
def protectedRoute (secret : String) (db : DBState) (now : Int) (hdr : AuthHeader) :
    RouteOutcome :=
  match authenticate secret db now hdr with
  | AuthResult.unauthorized => RouteOutcome.unauthorized
  | AuthResult.proceedAnonymous => RouteOutcome.unauthorized
  | AuthResult.proceedUser u => RouteOutcome.handlerRan u

/-! ## The /verify handler (src/cmd/api/handlers.go, handleVerifyOTP, lines
122-166) -/

inductive VerifyHTTP
  | badRequest
  | unauthorized
  | serverError
  | okResponse (u : User)
deriving DecidableEq, Repr

/-- handleVerifyOTP on a decoded payload: 400 when either field is empty,
401 when verifyOTPInRedis fails, 500 when createUserIfNotExists fails,
otherwise 200 with the user and a fresh JWT (generateJWT with a symmetric
secret cannot fail). -/
def handleVerifyOTP (st : RedisState) (lookupDB insertDB : DBState)
    (newId createdAt now : Int) (phoneNumber otp : String) : VerifyHTTP :=
  if phoneNumber = "" ∨ otp = "" then VerifyHTTP.badRequest
  else
    match (verifyOTPInRedis st phoneNumber otp now).1 with
    | VerifyResult.invalidOTP => VerifyHTTP.unauthorized
    | VerifyResult.ok =>
      match createUserIfNotExists lookupDB insertDB phoneNumber newId createdAt with
      | Except.error _ => VerifyHTTP.serverError
      | Except.ok u => VerifyHTTP.okResponse u

/-! ## Store lemmas -/

theorem lookupKey_setKey (st : RedisState) (key : String) (e : RedisEntry) :
    lookupKey (setKey st key e) key = some e := by
  induction st with
  | nil => simp [setKey, lookupKey]
  | cons hd rest ih =>
    obtain ⟨k, e1⟩ := hd
    by_cases hk : k = key
    · simp [setKey, lookupKey, hk]
    · simp [setKey, lookupKey, hk, ih]

theorem goMapGet_setField (fs : List (String × String)) (k v : String) :
    goMapGet (setField fs k v) k = v := by
  induction fs with
  | nil => simp [setField, goMapGet]
  | cons hd rest ih =>
    obtain ⟨k1, v1⟩ := hd
    by_cases hk : k1 = k
    · simp [setField, goMapGet, hk]
    · simp [setField, goMapGet, hk, ih]

/-- After storeOTPInRedis the challenge slot for the phone number holds a hash
whose otp field is the stored code, expiring exactly otpTTL after the store. -/
theorem storeOTP_spec (st : RedisState) (phone otp : String) (t0 : Int) :
    ∃ fs, lookupKey (storeOTPInRedis st phone otp t0) phone =
        some { fields := fs, expireAt := some (t0 + otpTTL) } ∧
      goMapGet fs "otp" = otp := by
  have key : ∃ e1 : RedisEntry, hsetRun st phone "otp" otp t0 = setKey st phone e1 ∧
      entryLive e1 t0 = true ∧ goMapGet e1.fields "otp" = otp := by
    cases hl : lookupKey st phone with
    | none =>
      refine ⟨{ fields := [("otp", otp)], expireAt := none }, ?_, rfl, by simp [goMapGet]⟩
      rw [hsetRun, hl]
    | some e =>
      by_cases hlive : entryLive e t0
      · refine ⟨{ fields := setField e.fields "otp" otp, expireAt := e.expireAt }, ?_,
          hlive, goMapGet_setField e.fields "otp" otp⟩
        rw [hsetRun, hl]
        dsimp only
        rw [if_pos hlive]
      · refine ⟨{ fields := [("otp", otp)], expireAt := none }, ?_, rfl, by simp [goMapGet]⟩
        rw [hsetRun, hl]
        dsimp only
        rw [if_neg hlive]
  obtain ⟨e1, he1, hlive1, hget1⟩ := key
  refine ⟨e1.fields, ?_, hget1⟩
  rw [storeOTPInRedis, he1]
  simp only [expireRun, lookupKey_setKey, hlive1, if_true]

/-- The fields visible at the phone number after a store: the stored hash
while the TTL lasts, nothing once it has expired. -/
theorem liveFields_storeOTP (st : RedisState) (phone otp : String) (t0 t : Int) :
    (t < t0 + otpTTL →
      goMapGet (liveFields (storeOTPInRedis st phone otp t0) phone t) "otp" = otp) ∧
    (t0 + otpTTL ≤ t → liveFields (storeOTPInRedis st phone otp t0) phone t = []) := by
  obtain ⟨fs, hlk, hget⟩ := storeOTP_spec st phone otp t0
  constructor
  · intro ht
    rw [liveFields, hlk]
    simp only [entryLive, decide_eq_true_eq]
    rw [if_pos ht]
    exact hget
  · intro ht
    rw [liveFields, hlk]
    simp only [entryLive, decide_eq_true_eq]
    rw [if_neg (by omega)]

/-! ## C1: rate-limit counter behaviour -/

/-- Calls strictly inside a live window: each observes the incremented count
and the window expiry is untouched. -/
theorem runOTPCalls_within (ts : List Int) :
    ∀ (k : Nat) (exp : Int), (∀ u ∈ ts, u < exp) →
      (runOTPCalls ts (some (k, exp))).1 =
        (List.range ts.length).map
          (fun i => (decide (k + i + 1 ≤ otpRateLimitMax), k + i + 1)) ∧
      (runOTPCalls ts (some (k, exp))).2 = some (k + ts.length, exp) := by
  induction ts with
  | nil => intro k exp _; simp [runOTPCalls]
  | cons t rest ih =>
    intro k exp hin
    have ht : t < exp := hin t (by simp)
    have hstep : allowOTPRequest t (some (k, exp)) =
        ((decide (k + 1 ≤ otpRateLimitMax), k + 1), some (k + 1, exp)) := by
      rw [allowOTPRequest, otpRateLimitScript]
      simp [ht]
    obtain ⟨hres, hst⟩ := ih (k + 1) exp (fun u hu => hin u (by simp [hu]))
    rw [runOTPCalls]
    simp only [hstep, hres, hst]
    refine ⟨?_, by simp; omega⟩
    have htail : List.map
          ((fun i => (decide (k + i + 1 ≤ otpRateLimitMax), k + i + 1)) ∘ Nat.succ)
          (List.range rest.length) =
        List.map (fun i => (decide (k + 1 + i + 1 ≤ otpRateLimitMax), k + 1 + i + 1))
          (List.range rest.length) := by
      apply List.map_congr_left
      intro i _
      simp only [Function.comp_apply, Nat.succ_eq_add_one]
      have harith : k + (i + 1) + 1 = k + 1 + i + 1 := by omega
      rw [harith]
    rw [List.length_cons, List.range_succ_eq_map, List.map_cons, List.map_map, htail]

/-- Claim C1.  The rate-limit counter as a step function: the first call in a
window (absent key) initializes the counter to 1 and is allowed; a call
inside a live window observes the incremented count, is allowed exactly when
the new count is at most the max, and increments even when rejecting; a call
after the window expiry resets the counter to 1 and is allowed; a run of
calls all inside the first call's window observes counts 1, 2, 3, ... with
the Nth call observing N and admitted exactly when N is at most the max. -/
theorem C1_rate_limit_counter :
    (∀ now : Int,
      allowOTPRequest now none = ((true, 1), some (1, now + otpRateLimitWindow))) ∧
    (∀ (now exp : Int) (n : Nat), now < exp →
      allowOTPRequest now (some (n, exp)) =
        ((decide (n + 1 ≤ otpRateLimitMax), n + 1), some (n + 1, exp))) ∧
    (∀ (now exp : Int) (n : Nat), exp ≤ now →
      allowOTPRequest now (some (n, exp)) = ((true, 1), some (1, now + otpRateLimitWindow))) ∧
    (∀ (t : Int) (ts : List Int), (∀ u ∈ ts, u < t + otpRateLimitWindow) →
      (runOTPCalls (t :: ts) none).1 =
        (List.range (ts.length + 1)).map
          (fun i => (decide (i + 1 ≤ otpRateLimitMax), i + 1))) := by
  refine ⟨?_, ?_, ?_, ?_⟩
  · intro now
    rw [allowOTPRequest, otpRateLimitScript]
    rfl
  · intro now exp n h
    rw [allowOTPRequest, otpRateLimitScript]
    simp [h]
  · intro now exp n h
    rw [allowOTPRequest, otpRateLimitScript]
    simp only [if_neg (by omega : ¬ now < exp)]
    rfl
  · intro t ts hin
    have hfirst : allowOTPRequest t none = ((true, 1), some (1, t + otpRateLimitWindow)) := by
      rw [allowOTPRequest, otpRateLimitScript]
      rfl
    obtain ⟨hres, _⟩ := runOTPCalls_within ts 1 (t + otpRateLimitWindow) hin
    rw [runOTPCalls]
    simp only [hfirst, hres]
    have htail : List.map
          ((fun i => (decide (i + 1 ≤ otpRateLimitMax), i + 1)) ∘ Nat.succ)
          (List.range ts.length) =
        List.map (fun i => (decide (1 + i + 1 ≤ otpRateLimitMax), 1 + i + 1))
          (List.range ts.length) := by
      apply List.map_congr_left
      intro i _
      simp only [Function.comp_apply, Nat.succ_eq_add_one]
      have harith : i + 1 + 1 = 1 + i + 1 := by omega
      rw [harith]
    rw [List.range_succ_eq_map, List.map_cons, List.map_map, htail]
    rfl

/-- Witness for C1 at concrete inputs: four calls at seconds 0, 100, 200, 300
(all inside one 10-minute window) observe counts 1, 2, 3, 4 and are admitted,
admitted, admitted, rejected; a later call at second 700 resets to 1. -/
theorem C1_rate_limit_counter_witness :
    (runOTPCalls [0, 100, 200, 300] none).1 =
      [(true, 1), (true, 2), (true, 3), (false, 4)] ∧
    allowOTPRequest 700 (runOTPCalls [0, 100, 200, 300] none).2 =
      ((true, 1), some (1, 1300)) := by
  have h4 := C1_rate_limit_counter.2.2.2 0 [100, 200, 300] (by decide)
  have hreset := C1_rate_limit_counter.2.2.1 700 600 4 (by decide)
  constructor
  · rw [h4]
    decide
  · have hst : (runOTPCalls [0, 100, 200, 300] none).2 = some (4, 600) := by decide
    rw [hst, hreset]
    decide

/-! ## C8: atomicity of the rate-limit check-and-increment

Redis runs a Lua script as one atomic action, so a concurrent pair of
allowOTPRequest calls for the same identity admits exactly two schedules:
the two sequential orders of the whole script.  Both calls execute the same
step at the same instant, so the two orders are the same composition; the
theorem shows that in it the second call always observes the first call's
count plus one - the two calls never read the same pre-increment value.
-/

/-- Claim C8.  For every counter state and instant, serializing two atomic
executions of the rate-limit script has the second observe exactly one more
than the first: no interleaving lets both calls observe the same
pre-increment counter value. -/
theorem C8_rate_limit_no_lost_update :
    ∀ (c : RLCounter) (now : Int),
      (allowOTPRequest now (allowOTPRequest now c).2).1.2 =
          (allowOTPRequest now c).1.2 + 1 ∧
      (allowOTPRequest now (allowOTPRequest now c).2).1.2 ≠
          (allowOTPRequest now c).1.2 := by
  intro c now
  have hwin : now < now + otpRateLimitWindow := by
    have hpos : (0 : Int) < otpRateLimitWindow := by decide
    omega
  cases c with
  | none =>
    constructor <;> simp [allowOTPRequest, otpRateLimitScript, hwin]
  | some p =>
    obtain ⟨n, exp⟩ := p
    by_cases h : now < exp
    · constructor <;> simp [allowOTPRequest, otpRateLimitScript, h, hwin]
    · constructor <;> simp [allowOTPRequest, otpRateLimitScript, h, hwin]

/-! ## C4: the generated OTP codes -/

/-- Claim C4.  Every possible random draw yields a string of exactly four decimal
digit characters, but the reachable codes are not the full range 0000-9999:
only int(otp at index 0) enters the computation, so every reachable code
denotes a value at most 255, and (for example) the code 0300 the spec's
range requires is reachable under no draw.  This refutes the full-range half
of the claim and pins the code bug: two bytes are drawn and reduced mod
10000, which only makes sense if both bytes fed the value, yet only the
first byte is read. -/
theorem C4_generateOTP_digits_but_capped :
    (∀ b0 b1 : Fin 256, (generateOTP b0 b1).length = 4 ∧
      ∀ c ∈ (generateOTP b0 b1).data, 48 ≤ c.toNat ∧ c.toNat ≤ 57) ∧
    (∀ b0 b1 : Fin 256, ∃ v : Nat, v ≤ 255 ∧ generateOTP b0 b1 = sprintf04d v) ∧
    (∀ b0 b1 : Fin 256, generateOTP b0 b1 ≠ "0300") := by
  refine ⟨?_, ?_, ?_⟩
  · intro b0 b1
    show (generateOTP b0 0).length = 4 ∧
      ∀ c ∈ (generateOTP b0 0).data, 48 ≤ c.toNat ∧ c.toNat ≤ 57
    revert b0
    decide
  · intro b0 b1
    exact ⟨b0.val % 10000, by omega, rfl⟩
  · intro b0 b1
    show generateOTP b0 0 ≠ "0300"
    revert b0
    decide

/-! ## Verification lemmas for the challenge store -/

/-- The result of verifyOTPInRedis is the comparison of the visible otp field
with the submitted code. -/
theorem verify_fst (st : RedisState) (phone code : String) (t : Int) :
    (verifyOTPInRedis st phone code t).1 =
      if goMapGet (liveFields st phone t) "otp" = code then VerifyResult.ok
      else VerifyResult.invalidOTP := by
  by_cases h : goMapGet (liveFields st phone t) "otp" = code
  · simp [verifyOTPInRedis, hgetAllRun, h]
  · simp [verifyOTPInRedis, hgetAllRun, h]

theorem liveFields_of_lookup (st : RedisState) (phone : String) (t : Int)
    (e : RedisEntry) (exp : Int) (hl : lookupKey st phone = some e)
    (hexp : e.expireAt = some exp) (ht : t < exp) :
    liveFields st phone t = e.fields := by
  have hliv : entryLive e t = true := by
    unfold entryLive
    rw [hexp]
    simp [ht]
  rw [liveFields, hl]
  dsimp only
  rw [hliv]
  simp

/-! ## C2: verification succeeds exactly on the stored, unexpired code -/

/-- Claim C2.  After a challenge is stored for a phone number, verification of a
non-empty submitted code succeeds exactly when the record is unexpired and
the code string-equals the stored one; and with both payload fields
non-empty the /verify handler answers 401 exactly when verification fails,
and 200 (with the upserted user) exactly when it succeeds. -/
theorem C2_verify_iff_stored_code (st : RedisState) (phone otp code : String)
    (t0 t : Int) (hcode : code ≠ "") :
    ((verifyOTPInRedis (storeOTPInRedis st phone otp t0) phone code t).1 =
        VerifyResult.ok ↔ (t < t0 + otpTTL ∧ code = otp)) ∧
    (∀ (lookupDB insertDB : DBState) (newId createdAt : Int), phone ≠ "" →
      (handleVerifyOTP (storeOTPInRedis st phone otp t0) lookupDB insertDB
          newId createdAt t phone code = VerifyHTTP.unauthorized ↔
        (verifyOTPInRedis (storeOTPInRedis st phone otp t0) phone code t).1 =
          VerifyResult.invalidOTP)) ∧
    (∀ (lookupDB insertDB : DBState) (newId createdAt : Int) (u : User), phone ≠ "" →
      createUserIfNotExists lookupDB insertDB phone newId createdAt = Except.ok u →
      (handleVerifyOTP (storeOTPInRedis st phone otp t0) lookupDB insertDB
          newId createdAt t phone code = VerifyHTTP.okResponse u ↔
        (verifyOTPInRedis (storeOTPInRedis st phone otp t0) phone code t).1 =
          VerifyResult.ok)) := by
  obtain ⟨hwithin, hafter⟩ := liveFields_storeOTP st phone otp t0 t
  refine ⟨?_, ?_, ?_⟩
  · rw [verify_fst]
    by_cases hT : t < t0 + otpTTL
    · rw [hwithin hT]
      by_cases he : otp = code
      · simp [he, hT]
      · have hne : ¬ (otp = code) := he
        simp only [hne, if_false]
        constructor
        · intro hcontra; exact absurd hcontra (by simp)
        · intro hcontra; exact absurd hcontra.2.symm hne
    · rw [hafter (by omega)]
      have hempty : goMapGet ([] : List (String × String)) "otp" = "" := rfl
      rw [hempty, if_neg (fun h => hcode h.symm)]
      constructor
      · intro hcontra; exact absurd hcontra (by simp)
      · intro hcontra; exact absurd hcontra.1 hT
  · intro lookupDB insertDB newId createdAt hphone
    rw [handleVerifyOTP, if_neg (by simp [hphone, hcode])]
    cases hv : (verifyOTPInRedis (storeOTPInRedis st phone otp t0) phone code t).1 with
    | invalidOTP => simp
    | ok =>
      cases hcu : createUserIfNotExists lookupDB insertDB phone newId createdAt with
      | error e => simp
      | ok u => simp
  · intro lookupDB insertDB newId createdAt u hphone hcu
    rw [handleVerifyOTP, if_neg (by simp [hphone, hcode])]
    cases hv : (verifyOTPInRedis (storeOTPInRedis st phone otp t0) phone code t).1 with
    | invalidOTP => simp
    | ok => simp [hcu]

/-- Witness for C2 at concrete inputs: store code 1234 at time 0, verify the
same code at second 60 (inside the 2-minute TTL) against an empty user
database that upserts user id 7. -/
theorem C2_verify_iff_stored_code_witness :
    ((verifyOTPInRedis (storeOTPInRedis [] "+15551234" "1234" 0) "+15551234" "1234" 60).1 =
        VerifyResult.ok ↔ ((60 : Int) < 0 + otpTTL ∧ "1234" = "1234")) ∧
    (handleVerifyOTP (storeOTPInRedis [] "+15551234" "1234" 0) [] [] 7 3 60
        "+15551234" "1234" = VerifyHTTP.unauthorized ↔
      (verifyOTPInRedis (storeOTPInRedis [] "+15551234" "1234" 0) "+15551234" "1234" 60).1 =
        VerifyResult.invalidOTP) ∧
    (handleVerifyOTP (storeOTPInRedis [] "+15551234" "1234" 0) [] [] 7 3 60
        "+15551234" "1234" =
        VerifyHTTP.okResponse { id := 7, createdAt := 3, phoneNumber := "+15551234" } ↔
      (verifyOTPInRedis (storeOTPInRedis [] "+15551234" "1234" 0) "+15551234" "1234" 60).1 =
        VerifyResult.ok) :=
  ⟨(C2_verify_iff_stored_code [] "+15551234" "1234" "1234" 0 60 (by decide)).1,
   (C2_verify_iff_stored_code [] "+15551234" "1234" "1234" 0 60 (by decide)).2.1
     [] [] 7 3 (by decide),
   (C2_verify_iff_stored_code [] "+15551234" "1234" "1234" 0 60 (by decide)).2.2
     [] [] 7 3 _ (by decide) rfl⟩

/-! ## C6: a new challenge overwrites the single per-identity slot -/

/-- Claim C6.  Storing a new code for a phone number after an older, different one
leaves a single challenge slot holding only the new code: the new code
verifies (within its TTL), the old code no longer does, and the key holds
one hash whose otp field is the new code with the new expiry. -/
theorem C6_new_challenge_invalidates_old (st : RedisState) (phone oldC newC : String)
    (t0 t1 t : Int) (hne : oldC ≠ newC) (ht : t < t1 + otpTTL) :
    (verifyOTPInRedis (storeOTPInRedis (storeOTPInRedis st phone oldC t0) phone newC t1)
        phone newC t).1 = VerifyResult.ok ∧
    (verifyOTPInRedis (storeOTPInRedis (storeOTPInRedis st phone oldC t0) phone newC t1)
        phone oldC t).1 = VerifyResult.invalidOTP ∧
    ∃ fs, lookupKey (storeOTPInRedis (storeOTPInRedis st phone oldC t0) phone newC t1)
          phone = some { fields := fs, expireAt := some (t1 + otpTTL) } ∧
      goMapGet fs "otp" = newC := by
  obtain ⟨hwithin, _⟩ :=
    liveFields_storeOTP (storeOTPInRedis st phone oldC t0) phone newC t1 t
  refine ⟨?_, ?_, storeOTP_spec (storeOTPInRedis st phone oldC t0) phone newC t1⟩
  · rw [verify_fst, hwithin ht]
    simp
  · rw [verify_fst, hwithin ht]
    rw [if_neg (fun hc => hne hc.symm)]

/-- Witness for C6: code 1111 stored at time 0 then code 2222 at time 30;
at second 60 the new code verifies and the old one is rejected. -/
theorem C6_new_challenge_invalidates_old_witness :
    (verifyOTPInRedis (storeOTPInRedis (storeOTPInRedis [] "+15551234" "1111" 0)
        "+15551234" "2222" 30) "+15551234" "2222" 60).1 = VerifyResult.ok ∧
    (verifyOTPInRedis (storeOTPInRedis (storeOTPInRedis [] "+15551234" "1111" 0)
        "+15551234" "2222" 30) "+15551234" "1111" 60).1 = VerifyResult.invalidOTP ∧
    ∃ fs, lookupKey (storeOTPInRedis (storeOTPInRedis [] "+15551234" "1111" 0)
          "+15551234" "2222" 30) "+15551234" =
        some { fields := fs, expireAt := some (30 + otpTTL) } ∧
      goMapGet fs "otp" = "2222" :=
  C6_new_challenge_invalidates_old [] "+15551234" "1111" "2222" 0 30 60
    (by decide) (by decide)

/-! ## C7: verification is a pure read; successful codes replay until expiry -/

/-- Claim C7.  verifyOTPInRedis never mutates the store: in every case the state
after the call is the state before it; consequently a code that verifies at
time t verifies again at any later time before the record's expiry. -/
theorem C7_verify_read_only_replay (st : RedisState) (phone code : String)
    (t t' : Int) (e : RedisEntry) (exp : Int) :
    ((verifyOTPInRedis st phone code t).2 = st) ∧
    (lookupKey st phone = some e → e.expireAt = some exp → t ≤ t' → t' < exp →
      (verifyOTPInRedis st phone code t).1 = VerifyResult.ok →
      (verifyOTPInRedis st phone code t').1 = VerifyResult.ok) := by
  constructor
  · simp only [verifyOTPInRedis, hgetAllRun]
    split <;> rfl
  · intro hl hexp htt' ht' hok
    have hlt : t < exp := by omega
    rw [verify_fst, liveFields_of_lookup st phone t e exp hl hexp hlt] at hok
    rw [verify_fst, liveFields_of_lookup st phone t' e exp hl hexp ht']
    by_cases hc : goMapGet e.fields "otp" = code
    · rw [if_pos hc]
    · rw [if_neg hc] at hok
      exact absurd hok (by simp)

/-- Witness for C7: with code 1234 stored at time 0, verifying at second 10
returns ok and leaves the store unchanged, and the same code still verifies
at second 100, before the 2-minute expiry. -/
theorem C7_verify_read_only_replay_witness :
    ((verifyOTPInRedis (storeOTPInRedis [] "+15551234" "1234" 0) "+15551234"
        "1234" 10).2 = storeOTPInRedis [] "+15551234" "1234" 0) ∧
    (verifyOTPInRedis (storeOTPInRedis [] "+15551234" "1234" 0) "+15551234"
        "1234" 100).1 = VerifyResult.ok :=
  ⟨(C7_verify_read_only_replay (storeOTPInRedis [] "+15551234" "1234" 0)
      "+15551234" "1234" 10 100 { fields := [("otp", "1234")], expireAt := some 120 }
      120).1,
   (C7_verify_read_only_replay (storeOTPInRedis [] "+15551234" "1234" 0)
      "+15551234" "1234" 10 100 { fields := [("otp", "1234")], expireAt := some 120 }
      120).2 (by decide) (by decide) (by decide) (by decide) (by decide)⟩

/-! ## C10: an absent challenge makes exactly the empty code verify -/

/-- Claim C10.  When no live challenge record exists for a phone number, HGETALL
yields an empty map and the missing otp field reads as the empty string, so
verification succeeds exactly for the empty submitted code; the HTTP
handler never reaches this case because an empty otp field is rejected with
400 before verifyOTPInRedis is called. -/
theorem C10_absent_challenge_empty_code (st : RedisState) (phone code : String)
    (now : Int) (habs : liveFields st phone now = []) :
    ((verifyOTPInRedis st phone code now).1 = VerifyResult.ok ↔ code = "") ∧
    (∀ (lookupDB insertDB : DBState) (newId createdAt : Int) (ph : String),
      handleVerifyOTP st lookupDB insertDB newId createdAt now ph "" =
        VerifyHTTP.badRequest) := by
  constructor
  · rw [verify_fst, habs]
    have hempty : goMapGet ([] : List (String × String)) "otp" = "" := rfl
    rw [hempty]
    by_cases hc : code = ""
    · simp [hc]
    · rw [if_neg (fun h => hc h.symm)]
      constructor
      · intro hcontra; exact absurd hcontra (by simp)
      · intro hcontra; exact absurd hcontra hc
  · intro lookupDB insertDB newId createdAt ph
    rw [handleVerifyOTP, if_pos (Or.inr rfl)]

/-- Witness for C10: on the empty store, the empty code verifies for any
phone number while the handler still answers 400 to an empty otp field. -/
theorem C10_absent_challenge_empty_code_witness :
    ((verifyOTPInRedis [] "+15551234" "" 0).1 = VerifyResult.ok ↔ ("" : String) = "") ∧
    handleVerifyOTP [] [] [] 7 3 0 "+15551234" "" = VerifyHTTP.badRequest :=
  ⟨(C10_absent_challenge_empty_code [] "+15551234" "" 0 (by decide)).1,
   (C10_absent_challenge_empty_code [] "+15551234" "" 0 (by decide)).2 [] [] 7 3 "+15551234"⟩

/-! ## C5: the verification-to-registration upsert under the creation race -/

/-- Counterexample to C5 as stated: a user for the phone number is created
concurrently between the lookup (database state empty) and the insert
(database state already containing the row), so the insert hits the
uniqueness violation - and createUserIfNotExists surfaces it as an error
instead of returning the existing identity. -/
theorem C5_counterexample :
    createUserIfNotExists []
        [{ id := 1, createdAt := 0, phoneNumber := "+15551234" }] "+15551234" 2 5 =
      Except.error
        "failed to create a user: duplicate key value violates unique constraint" ∧
    createUserIfNotExists []
        [{ id := 1, createdAt := 0, phoneNumber := "+15551234" }] "+15551234" 2 5 ≠
      Except.ok { id := 1, createdAt := 0, phoneNumber := "+15551234" } := by
  constructor
  · rfl
  · intro h
    rw [show createUserIfNotExists []
        [{ id := 1, createdAt := 0, phoneNumber := "+15551234" }] "+15551234" 2 5 =
      Except.error
        "failed to create a user: duplicate key value violates unique constraint"
      from rfl] at h
    exact Except.noConfusion h

/-- Claim C5, amended.  The upsert is idempotent only in the race-free cases: a user
present at the lookup is returned with no error, and a user absent at both
the lookup and the insert is created and returned; but when the row appears
between the lookup and the insert (the duplicate-creation race), the
uniqueness violation IS surfaced to the caller as an error rather than being
recovered by re-fetching. -/
theorem C5_upsert_race_surfaces_error (lookupDB insertDB : DBState) (phone : String)
    (newId createdAt : Int) :
    (∀ u, getByPhoneNumber lookupDB phone = some u →
      createUserIfNotExists lookupDB insertDB phone newId createdAt = Except.ok u) ∧
    (getByPhoneNumber lookupDB phone = none →
      getByPhoneNumber insertDB phone = none →
      createUserIfNotExists lookupDB insertDB phone newId createdAt =
        Except.ok { id := newId, createdAt := createdAt, phoneNumber := phone }) ∧
    (getByPhoneNumber lookupDB phone = none →
      (getByPhoneNumber insertDB phone).isSome = true →
      createUserIfNotExists lookupDB insertDB phone newId createdAt =
        Except.error
          "failed to create a user: duplicate key value violates unique constraint") := by
  refine ⟨?_, ?_, ?_⟩
  · intro u hu
    rw [createUserIfNotExists, hu]
  · intro h1 h2
    rw [createUserIfNotExists, h1]
    dsimp only
    rw [insertUser, h2]
    rfl
  · intro h1 h2
    rw [createUserIfNotExists, h1]
    dsimp only
    rw [insertUser, if_pos h2]
    rfl

/-- Witness for the amended C5 on concrete database states: lookup hit,
race-free insert, and racing insert. -/
theorem C5_upsert_race_surfaces_error_witness :
    createUserIfNotExists [{ id := 1, createdAt := 0, phoneNumber := "+15551234" }]
        [{ id := 1, createdAt := 0, phoneNumber := "+15551234" }] "+15551234" 2 5 =
      Except.ok { id := 1, createdAt := 0, phoneNumber := "+15551234" } ∧
    createUserIfNotExists [] [] "+15551234" 2 5 =
      Except.ok { id := 2, createdAt := 5, phoneNumber := "+15551234" } ∧
    createUserIfNotExists []
        [{ id := 1, createdAt := 0, phoneNumber := "+15551234" }] "+15551234" 2 5 =
      Except.error
        "failed to create a user: duplicate key value violates unique constraint" :=
  ⟨(C5_upsert_race_surfaces_error
      [{ id := 1, createdAt := 0, phoneNumber := "+15551234" }]
      [{ id := 1, createdAt := 0, phoneNumber := "+15551234" }] "+15551234" 2 5).1
      { id := 1, createdAt := 0, phoneNumber := "+15551234" } (by decide),
   (C5_upsert_race_surfaces_error [] [] "+15551234" 2 5).2.1 rfl rfl,
   (C5_upsert_race_surfaces_error []
      [{ id := 1, createdAt := 0, phoneNumber := "+15551234" }] "+15551234" 2 5).2.2
      rfl (by decide)⟩

/-! ## C3: JWT issue/validate round trip and expiry -/

/-- Claim C3.  A token issued by generateJWT for subject S with ttl T validates at
every instant strictly before issuedAt plus T - the middleware resolves it
to S and proceeds with the user stored under S - and fails validation at
every instant strictly after issuedAt plus T, where the middleware rejects
with 401. -/
theorem C3_jwt_round_trip_expiry (secret : String) (S ttl now t : Int)
    (db : DBState) (u : User) (hdb : getByID db S = some u) :
    (t < now + ttl →
      parseWithClaims secret (generateJWT secret S ttl now) t =
        some { subject := formatInt S, issuedAt := now, expiresAt := now + ttl } ∧
      parseInt64 (generateJWT secret S ttl now).claims.subject = some S ∧
      authenticate secret db t (AuthHeader.bearer (some (generateJWT secret S ttl now))) =
        AuthResult.proceedUser u) ∧
    (now + ttl < t →
      parseWithClaims secret (generateJWT secret S ttl now) t = none ∧
      authenticate secret db t (AuthHeader.bearer (some (generateJWT secret S ttl now))) =
        AuthResult.unauthorized) := by
  constructor
  · intro ht
    have hparse : parseWithClaims secret (generateJWT secret S ttl now) t =
        some { subject := formatInt S, issuedAt := now, expiresAt := now + ttl } := by
      rw [parseWithClaims]
      simp only [generateJWT, SigAlg.isHMAC, if_true]
      rw [if_pos ht]
    refine ⟨hparse, parseInt64_formatInt S, ?_⟩
    rw [authenticate, hparse]
    dsimp only
    rw [if_neg (formatInt_ne_empty S), parseInt64_formatInt S]
    dsimp only
    rw [hdb]
  · intro ht
    have hparse : parseWithClaims secret (generateJWT secret S ttl now) t = none := by
      rw [parseWithClaims]
      simp only [generateJWT, SigAlg.isHMAC, if_true]
      rw [if_neg (by omega : ¬ t < now + ttl)]
    refine ⟨hparse, ?_⟩
    rw [authenticate, hparse]

/-- Witness for C3: the token for user id 7 issued at second 0 with a ttl of
100 seconds is accepted at second 50 resolving to user 7, and rejected at
second 200. -/
theorem C3_jwt_round_trip_expiry_witness :
    (parseWithClaims "server-secret" (generateJWT "server-secret" 7 100 0) 50 =
        some { subject := formatInt 7, issuedAt := 0, expiresAt := 0 + 100 } ∧
      parseInt64 (generateJWT "server-secret" 7 100 0).claims.subject = some 7 ∧
      authenticate "server-secret" [{ id := 7, createdAt := 3, phoneNumber := "+15551234" }]
          50 (AuthHeader.bearer (some (generateJWT "server-secret" 7 100 0))) =
        AuthResult.proceedUser { id := 7, createdAt := 3, phoneNumber := "+15551234" }) ∧
    (parseWithClaims "server-secret" (generateJWT "server-secret" 7 100 0) 200 = none ∧
      authenticate "server-secret" [{ id := 7, createdAt := 3, phoneNumber := "+15551234" }]
          200 (AuthHeader.bearer (some (generateJWT "server-secret" 7 100 0))) =
        AuthResult.unauthorized) :=
  ⟨(C3_jwt_round_trip_expiry "server-secret" 7 100 0 50
      [{ id := 7, createdAt := 3, phoneNumber := "+15551234" }]
      { id := 7, createdAt := 3, phoneNumber := "+15551234" } (by decide)).1 (by decide),
   (C3_jwt_round_trip_expiry "server-secret" 7 100 0 200
      [{ id := 7, createdAt := 3, phoneNumber := "+15551234" }]
      { id := 7, createdAt := 3, phoneNumber := "+15551234" } (by decide)).2 (by decide)⟩

/-! ## C9: protected handlers run only behind a validated credential -/

/-- Claim C9.  On a route wrapped in authenticate and requireAuthenticatedUser, the
handler body runs only when the request carried a Bearer credential that
parsed, validated against the server secret, and resolved through a
non-empty numeric subject to an existing user; a missing credential
proceeds as anonymous and is rejected by the guard with 401, and a
malformed header or an unparsable Bearer payload is rejected by
authenticate itself before the handler. -/
theorem C9_protected_requires_valid_token (secret : String) (db : DBState) (now : Int)
    (hdr : AuthHeader) (u : User) :
    (protectedRoute secret db now hdr = RouteOutcome.handlerRan u →
      ∃ tok claims uid, hdr = AuthHeader.bearer (some tok) ∧
        parseWithClaims secret tok now = some claims ∧
        claims.subject ≠ "" ∧
        parseInt64 claims.subject = some uid ∧
        getByID db uid = some u) ∧
    protectedRoute secret db now AuthHeader.missing = RouteOutcome.unauthorized ∧
    (∀ raw : String,
      protectedRoute secret db now (AuthHeader.malformed raw) = RouteOutcome.unauthorized) ∧
    protectedRoute secret db now (AuthHeader.bearer none) = RouteOutcome.unauthorized := by
  refine ⟨?_, rfl, fun raw => rfl, rfl⟩
  intro hran
  match hdr with
  | AuthHeader.missing => exact absurd hran (by simp [protectedRoute, authenticate])
  | AuthHeader.malformed raw => exact absurd hran (by simp [protectedRoute, authenticate])
  | AuthHeader.bearer none => exact absurd hran (by simp [protectedRoute, authenticate])
  | AuthHeader.bearer (some tok) =>
    refine ⟨tok, ?_⟩
    rw [protectedRoute, authenticate] at hran
    cases hparse : parseWithClaims secret tok now with
    | none => rw [hparse] at hran; exact absurd hran (by simp)
    | some claims =>
      rw [hparse] at hran
      dsimp only at hran
      by_cases hsub : claims.subject = ""
      · rw [if_pos hsub] at hran; exact absurd hran (by simp)
      · rw [if_neg hsub] at hran
        cases hpi : parseInt64 claims.subject with
        | none => rw [hpi] at hran; exact absurd hran (by simp)
        | some uid =>
          rw [hpi] at hran
          dsimp only at hran
          cases hid : getByID db uid with
          | none => rw [hid] at hran; exact absurd hran (by simp)
          | some u1 =>
            rw [hid] at hran
            dsimp only at hran
            have huu : u1 = u := by
              cases hran
              rfl
            exact ⟨claims, uid, rfl, rfl, hsub, hpi, huu ▸ hid⟩

/-- Witness for C9: a concrete valid token for user id 7 makes the protected
handler run for that user. -/
theorem C9_protected_requires_valid_token_witness :
    ∃ tok claims uid,
      AuthHeader.bearer (some (generateJWT "server-secret" 7 100 0)) =
        AuthHeader.bearer (some tok) ∧
      parseWithClaims "server-secret" tok 50 = some claims ∧
      claims.subject ≠ "" ∧
      parseInt64 claims.subject = some uid ∧
      getByID [{ id := 7, createdAt := 3, phoneNumber := "+15551234" }] uid =
        some { id := 7, createdAt := 3, phoneNumber := "+15551234" } :=
  (C9_protected_requires_valid_token "server-secret"
    [{ id := 7, createdAt := 3, phoneNumber := "+15551234" }] 50
    (AuthHeader.bearer (some (generateJWT "server-secret" 7 100 0)))
    { id := 7, createdAt := 3, phoneNumber := "+15551234" }).1 (by decide)

end OtpLogin
